import Mathlib

/-!
Shallow embedding of the task-lifecycle engine of sleepless-opencode
(src/unnamed/part_002 `db.ts`, src/src/daemon.ts, src/src/validation.ts).

The SQLite table of tasks is modelled as a `List Task`; timestamps are
modelled as `Nat` (the source stores ISO-8601 strings whose lexicographic
order coincides with chronological order for well-formed values).  Each
definition translates one source function; SQL statements are translated
by their row-level semantics (`WHERE` = filter/lookup by primary key,
`UPDATE ... WHERE` = map over matching rows, `ORDER BY ... LIMIT 1` =
minimum under the order expression).
-/

namespace Sleepless

/-- `TaskStatus` from db.ts. -/
inductive TaskStatus where
  | pending
  | running
  | done
  | failed
  | cancelled
deriving DecidableEq, Repr

/-- `TaskPriority` from db.ts. -/
inductive TaskPriority where
  | low
  | medium
  | high
  | urgent
deriving DecidableEq, Repr

/-- The `Task` row of db.ts (timestamps as `Nat`, nullable columns as `Option`). -/
structure Task where
  id : Nat
  prompt : String
  project_path : Option String
  status : TaskStatus
  priority : TaskPriority
  result : Option String
  error : Option String
  error_type : Option String
  session_id : Option String
  iteration : Nat
  max_iterations : Nat
  retry_count : Nat
  max_retries : Nat
  retry_after : Option Nat
  created_at : Nat
  started_at : Option Nat
  completed_at : Option Nat
  created_by : Option String
  source : String
  depends_on : Option Nat
deriving DecidableEq, Repr

/-- The `TaskCreate` input record of db.ts.  Optional numeric fields stay
`Option Nat` so that the JavaScript falsiness of `0` can be modelled. -/
structure TaskCreate where
  prompt : String
  project_path : Option String
  priority : Option TaskPriority
  max_iterations : Option Nat
  max_retries : Option Nat
  created_by : Option String
  source : String
  depends_on : Option Nat
deriving DecidableEq, Repr

/-- The queue state: the rows of the `tasks` table, in rowid order. -/
abbrev QueueState := List Task

/-- `get(id)`: `SELECT * FROM tasks WHERE id = ?` (id is the primary key). -/
def findTask (st : QueueState) (id : Nat) : Option Task :=
  st.find? (fun t => t.id == id)

/-- Row-level semantics of `UPDATE tasks SET ... WHERE id = ?`. -/
def updateTask (st : QueueState) (id : Nat) (f : Task → Task) : QueueState :=
  st.map (fun t => if t.id == id then f t else t)

/-- The `CASE t.priority ... END` rank used by `getNext` / `getNextRetryable`. -/
def priorityRank : TaskPriority → Nat
  | .urgent => 0
  | .high => 1
  | .medium => 2
  | .low => 3

/-- The `LEFT JOIN tasks dep ON t.depends_on = dep.id ... dep.status = 'done'`
condition of `getNextRetryable`. -/
def depSatisfied (st : QueueState) (t : Task) : Bool :=
  match t.depends_on with
  | none => true
  | some pid => st.any (fun d => d.id == pid && d.status == TaskStatus.done)

/-- The `WHERE` clause of `getNextRetryable`: pending, retry_after elapsed
(or absent), dependency done (or absent). -/
def eligibleB (st : QueueState) (now : Nat) (t : Task) : Bool :=
  t.status == TaskStatus.pending
    && (match t.retry_after with
        | none => true
        | some r => r ≤ now)
    && depSatisfied st t

/-- Strict lexicographic comparison on `(priority rank, created_at)`,
the `ORDER BY` key of `getNextRetryable`. -/
def keyLt (a b : Task) : Bool :=
  priorityRank a.priority < priorityRank b.priority
    || (priorityRank a.priority == priorityRank b.priority
        && a.created_at < b.created_at)

/-- `ORDER BY key LIMIT 1`: a row minimal under `keyLt` (SQLite leaves the
choice among fully tied rows unspecified; this model keeps the earliest). -/
def selectMin : List Task → Option Task
  | [] => none
  | t :: rest =>
    match selectMin rest with
    | none => some t
    | some b => if keyLt b t then some b else some t

/-- `getNextRetryable()` from db.ts. -/
def getNextRetryable (st : QueueState) (now : Nat) : Option Task :=
  selectMin (st.filter (eligibleB st now))

/-- `scheduleRetry(id, delaySeconds)` from db.ts.  Returns the boolean result
together with the updated table. -/
def scheduleRetry (st : QueueState) (id : Nat) (delaySeconds : Nat) (now : Nat) :
    Bool × QueueState :=
  match findTask st id with
  | none => (false, st)
  | some task =>
    if task.retry_count ≥ task.max_retries then (false, st)
    else
      (true, updateTask st id (fun t =>
        { t with
          status := TaskStatus.pending
          retry_count := t.retry_count + 1
          retry_after := some (now + delaySeconds)
          iteration := 0
          session_id := none
          started_at := none
          error := none }))

/-- `setFailed(id, error, errorType)` from db.ts; `errorType || null` maps the
empty string to NULL (JavaScript falsiness). -/
def setFailed (st : QueueState) (id : Nat) (error : String)
    (errorType : Option String) (now : Nat) : QueueState :=
  updateTask st id (fun t =>
    { t with
      status := TaskStatus.failed
      error := some error
      error_type := match errorType with
        | some s => if s = "" then none else some s
        | none => none
      completed_at := some now })

/-- `failDependentTasks(taskId, reason)` from db.ts:
`UPDATE tasks SET status='failed', error=?, error_type='dependency_failed',
completed_at=datetime('now') WHERE depends_on = ? AND status = 'pending'`. -/
def failDependentTasks (st : QueueState) (taskId : Nat) (reason : String)
    (now : Nat) : QueueState :=
  st.map (fun t =>
    if t.depends_on == some taskId && t.status == TaskStatus.pending then
      { t with
        status := TaskStatus.failed
        error := some reason
        error_type := some "dependency_failed"
        completed_at := some now }
    else t)

/-- Next AUTOINCREMENT rowid of the table. -/
def nextId (st : QueueState) : Nat :=
  (st.map Task.id).foldl max 0 + 1

/-- JavaScript `x || default` for an optional number (`0` is falsy). -/
def orDefaultNat (x : Option Nat) (d : Nat) : Nat :=
  match x with
  | none => d
  | some n => if n = 0 then d else n

/-- JavaScript `x || null` for an optional string (the empty string is falsy). -/
def orNullStr (x : Option String) : Option String :=
  match x with
  | none => none
  | some s => if s = "" then none else some s

/-- `create(task)` from db.ts: inserts the row (columns not in the INSERT take
their schema defaults) and returns it.  Note that `create` performs no
validation of the prompt or the project path. -/
def create (st : QueueState) (task : TaskCreate) (now : Nat) : Task × QueueState :=
  let row : Task :=
    { id := nextId st
      prompt := task.prompt
      project_path := orNullStr task.project_path
      status := TaskStatus.pending
      priority := task.priority.getD TaskPriority.medium
      result := none
      error := none
      error_type := none
      session_id := none
      iteration := 0
      max_iterations := orDefaultNat task.max_iterations 10
      retry_count := 0
      max_retries := orDefaultNat task.max_retries 3
      retry_after := none
      created_at := now
      started_at := none
      completed_at := none
      created_by := orNullStr task.created_by
      source := task.source
      depends_on := match task.depends_on with
        | none => none
        | some n => if n = 0 then none else some n }
  (row, st ++ [row])

/-! String primitives used by daemon.ts: JavaScript `toLowerCase`,
`String.prototype.includes` and `String.prototype.lastIndexOf`, modelled
over `List Char` (the source only uses ASCII phrase constants). -/

/-- JavaScript `s.toLowerCase()` (ASCII), as a character list. -/
def lowerChars (s : String) : List Char :=
  s.toList.map Char.toLower

/-- JavaScript `hay.includes(pat)` on character lists. -/
def containsSub : List Char → List Char → Bool
  | hay, pat =>
    match hay with
    | [] => pat.isEmpty
    | _ :: t => pat.isPrefixOf hay || containsSub t pat

/-- JavaScript `hay.includes(pat)` on strings. -/
def containsStr (hay pat : String) : Bool :=
  containsSub hay.toList pat.toList

/-- JavaScript `hay.lastIndexOf(pat)`: the greatest index at which `pat`
occurs, or `-1` when it does not occur. -/
def lastIdx (hay pat : List Char) : Int :=
  (List.range (hay.length + 1)).foldl
    (fun acc i => if pat.isPrefixOf (hay.drop i) then (i : Int) else acc)
    (-1)

/-- `COMPLETION_SIGNALS` from daemon.ts. -/
def COMPLETION_SIGNALS : List String :=
  ["[TASK_COMPLETE]",
   "[task_complete]",
   "task complete",
   "task completed",
   "successfully completed",
   "all done",
   "finished successfully",
   "completed successfully",
   "nothing left to do",
   "all steps completed",
   "all todos completed",
   "todos completed: "]

/-- `STRONG_COMPLETION_SIGNALS` from daemon.ts. -/
def STRONG_COMPLETION_SIGNALS : List String :=
  ["[TASK_COMPLETE]",
   "[task_complete]",
   "todos completed:",
   "all todos completed"]

/-- The planning-phrase list inside `Daemon.detectCompletion`. -/
def completionPlanningPhrases : List String :=
  ["i will", "i\x27ll", "let me", "next i", "then i"]

/-- `Daemon.detectCompletion(output)` from daemon.ts. -/
def detectCompletion (output : String) : Bool :=
  let lowerOutput := lowerChars output
  let hasStrongSignal := STRONG_COMPLETION_SIGNALS.any
    (fun signal => containsSub lowerOutput (lowerChars signal))
  if hasStrongSignal then true
  else
    let hasWeakSignal := COMPLETION_SIGNALS.any
      (fun signal => containsSub lowerOutput (lowerChars signal))
    if !hasWeakSignal then false
    else
      let hasPlanningAfterCompletion := completionPlanningPhrases.any (fun p =>
        let completionIdx := lastIdx lowerOutput ("complete".toList)
        let planningIdx := lastIdx lowerOutput (p.toList)
        decide (planningIdx > completionIdx) && decide (completionIdx ≥ 0))
      !hasPlanningAfterCompletion

/-! Error classification: `Daemon.getErrorMessage` / `Daemon.detectErrorType`. -/

/-- A runtime error value as probed by `getErrorMessage`: either a string or
an object whose `message` / `data` / `error` fields may hold further values
(possibly nested). -/
inductive ErrVal where
  | vstr : String → ErrVal
  | vobj : Option ErrVal → Option ErrVal → Option ErrVal → ErrVal

/-- JSON string escaping of the characters relevant here (backslash, quote). -/
def jsonEscape (s : String) : String :=
  s.toList.foldl
    (fun acc c =>
      if c = '\\' then acc ++ "\\\\"
      else if c = '"' then acc ++ "\\\""
      else acc.push c)
    ""

/-- `JSON.stringify` on an `ErrVal` (fields with absent values are omitted;
field order follows the `message`, `data`, `error` declaration order). -/
def stringifyErr : ErrVal → String
  | .vstr s => "\"" ++ jsonEscape s ++ "\""
  | .vobj m d e =>
    let fields :=
      (match m with
       | some v => ["\"message\":" ++ stringifyErr v]
       | none => []) ++
      (match d with
       | some v => ["\"data\":" ++ stringifyErr v]
       | none => []) ++
      (match e with
       | some v => ["\"error\":" ++ stringifyErr v]
       | none => [])
    "\x7b" ++ String.intercalate "," fields ++ "\x7d"

/-- JavaScript lowercasing of a whole string. -/
def jsLower (s : String) : String :=
  String.mk (lowerChars s)

/-- A probed path value counts when it is a non-empty string
(`typeof obj === "string" && obj.length > 0`). -/
def pathStr : Option ErrVal → Option String
  | some (.vstr s) => if s = "" then none else some s
  | _ => none

/-- The `message` field of a probed value when that value is an object
(`(errorObj.data as Record<string, unknown>)?.message`). -/
def msgField : Option ErrVal → Option ErrVal
  | some (.vobj m _ _) => m
  | _ => none

/-- First non-empty string among the probed paths. -/
def firstPathStr : List (Option ErrVal) → Option String
  | [] => none
  | p :: rest =>
    match pathStr p with
    | some s => some s
    | none => firstPathStr rest

/-- `Daemon.getErrorMessage(error)` from daemon.ts (`none` models a
null/undefined error value, which is falsy). -/
def getErrorMessage : Option ErrVal → String
  | none => ""
  | some (.vstr s) => if s = "" then "" else jsLower s
  | some (.vobj m d e) =>
    match firstPathStr [m, d, e, msgField d, msgField e] with
    | some s => jsLower s
    | none => jsLower (stringifyErr (.vobj m d e))

/-- The `ErrorType` taxonomy from daemon.ts. -/
inductive ErrorType where
  | rate_limit
  | context_exceeded
  | agent_not_found
  | tool_result_missing
  | thinking_block_error
  | timeout
  | unknown
deriving DecidableEq, Repr

/-- Classification of an extracted (already lowercased) message: the body of
`Daemon.detectErrorType` after `getErrorMessage`. -/
def classifyMessage (message : String) : ErrorType :=
  if containsStr message "rate" && containsStr message "limit" then
    ErrorType.rate_limit
  else if containsStr message "context"
      && (containsStr message "length" || containsStr message "window"
          || containsStr message "exceeded") then
    ErrorType.context_exceeded
  else if containsStr message "agent"
      && (containsStr message "not found" || containsStr message "undefined") then
    ErrorType.agent_not_found
  else if containsStr message "tool_use" && containsStr message "tool_result" then
    ErrorType.tool_result_missing
  else if containsStr message "thinking"
      && (containsStr message "block" || containsStr message "disabled") then
    ErrorType.thinking_block_error
  else if containsStr message "timeout" || containsStr message "timed out" then
    ErrorType.timeout
  else
    ErrorType.unknown

/-- `Daemon.detectErrorType(error)` from daemon.ts. -/
def detectErrorType (error : Option ErrVal) : ErrorType :=
  classifyMessage (getErrorMessage error)

/-- First-match evaluation of an ordered rule table. -/
def firstMatch (msg : String) : List (ErrorType × (String → Bool)) → ErrorType
  | [] => ErrorType.unknown
  | (t, p) :: rest => if p msg then t else firstMatch msg rest

/-- The classification rules exactly as the specification lists them, as an
ordered first-match table. -/
def classifierRules : List (ErrorType × (String → Bool)) :=
  [(ErrorType.rate_limit,
      fun m => containsStr m "rate" && containsStr m "limit"),
   (ErrorType.context_exceeded,
      fun m => containsStr m "context"
        && (containsStr m "length" || containsStr m "window"
            || containsStr m "exceeded")),
   (ErrorType.agent_not_found,
      fun m => containsStr m "agent"
        && (containsStr m "not found" || containsStr m "undefined")),
   (ErrorType.tool_result_missing,
      fun m => containsStr m "tool_use" && containsStr m "tool_result"),
   (ErrorType.thinking_block_error,
      fun m => containsStr m "thinking"
        && (containsStr m "block" || containsStr m "disabled")),
   (ErrorType.timeout,
      fun m => containsStr m "timeout" || containsStr m "timed out")]

/-- Specification-side classifier: apply the ordered rules first-match. -/
def classifySpec (msg : String) : ErrorType :=
  firstMatch msg classifierRules

/-! Executor pieces from daemon.ts: message extraction, continuation
detection, the idle and stability branches of `runSdkIteration`, and the
task-level loop `runTaskWithLoop`. -/

/-- One part of a runner message (`type`, optional `text`, optional `tool`). -/
structure MsgPart where
  type : String
  text : Option String
  tool : Option String
deriving DecidableEq, Repr

/-- A runner message: `info.role` and the parts list. -/
structure Message where
  role : Option String
  parts : List MsgPart
deriving DecidableEq, Repr

/-- JavaScript truthiness of `part.text` (`undefined` and `""` are falsy). -/
def truthyText (p : MsgPart) : Option String :=
  match p.text with
  | none => none
  | some t => if t = "" then none else some t

/-- `Daemon.extractOutputFromMessages(messages)` from daemon.ts. -/
def extractOutputFromMessages (messages : List Message) : String :=
  let textParts := messages.foldl
    (fun acc msg =>
      if msg.role == some "assistant" then
        acc ++ msg.parts.filterMap (fun part =>
          if part.type == "text" then truthyText part else none)
      else acc)
    []
  if textParts.length > 0 then String.intercalate "\n\n" textParts
  else "Task completed (no output captured)"

/-- The stopping-phrase list of `detectContinuationNeededFromMessages`. -/
def stoppingPhrases : List String :=
  ["waiting for", "need more information", "please provide",
   "could you clarify", "what would you like", "should i proceed"]

/-- The planning-phrase list of `detectContinuationNeededFromMessages`. -/
def continuationPlanningPhrases : List String :=
  ["i will", "i\x27ll", "let me", "first,", "next,", "then,",
   "step 1", "step 2", "here\x27s my plan", "i need to",
   "working on", "processing", "executing", "creating",
   "todo", "in_progress", "pending"]

/-- JavaScript truthiness of `part.tool`. -/
def truthyTool (p : MsgPart) : Bool :=
  match p.tool with
  | none => false
  | some s => s ≠ ""

/-- `Daemon.detectContinuationNeededFromMessages(messages, output)`. -/
def detectContinuationNeededFromMessages (messages : List Message)
    (output : String) : Bool :=
  if detectCompletion output then false
  else
    let hasToolCalls := messages.any (fun msg =>
      msg.parts.any (fun part => part.type == "tool" || truthyTool part))
    let lowerOutput := lowerChars output
    let needsInput := stoppingPhrases.any
      (fun p => containsSub lowerOutput p.toList)
    if needsInput then false
    else
      let hasPlanningLanguage := continuationPlanningPhrases.any
        (fun p => containsSub lowerOutput p.toList)
      hasToolCalls || hasPlanningLanguage

/-- `IterationResult` from daemon.ts. -/
structure IterationResult where
  output : String
  sessionId : Option String
  isComplete : Bool
  needsContinuation : Bool
deriving DecidableEq, Repr

/-- The explicit-idle branch of `runSdkIteration` (daemon.ts lines 707-756)
once the session reports idle and output validation has passed:
the incomplete-todos check, then completion and continuation detection. -/
def idleBranchResult (messages : List Message) (sessionId : Option String)
    (hasIncompleteTodos : Bool) : IterationResult :=
  let output := extractOutputFromMessages messages
  if hasIncompleteTodos then
    { output := output
      sessionId := sessionId
      isComplete := false
      needsContinuation := true }
  else
    let isComplete := detectCompletion output
    let needsContinuation := detectContinuationNeededFromMessages messages output
    { output := output
      sessionId := sessionId
      isComplete := isComplete || !needsContinuation
      needsContinuation := !isComplete && needsContinuation }

/-- The stability branch of `runSdkIteration` (daemon.ts lines 768-806) once
`stablePolls ≥ 3` and output validation has passed: the incomplete-todos
check, then an unconditional `isComplete := true` result. -/
def stabilityBranchResult (messages : List Message) (sessionId : Option String)
    (hasIncompleteTodos : Bool) : IterationResult :=
  let output := extractOutputFromMessages messages
  if hasIncompleteTodos then
    { output := output
      sessionId := sessionId
      isComplete := false
      needsContinuation := true }
  else
    { output := output
      sessionId := sessionId
      isComplete := true
      needsContinuation := false }

/-- The effective iteration cap: `task.max_iterations || 10`. -/
def effectiveMaxIterations (max_iterations : Nat) : Nat :=
  if max_iterations = 0 then 10 else max_iterations

/-- One observation of `runTaskWithLoop`: its returned string, the final
stored `iteration` field, and how many iterations were actually run. -/
structure LoopOutcome where
  result : String
  storedIteration : Nat
  iterationsRun : Nat
deriving DecidableEq, Repr

/-- The body of `Daemon.runTaskWithLoop`: `incrementIteration` first, then
the cap check, then one `runSingleIteration` (whose results are supplied by
the oracle `results`, indexed by completed iterations).  `fuel` bounds the
recursion; the wrapper passes enough for the cap to fire first. -/
def runLoopGo (maxIterations : Nat) (results : Nat → IterationResult) :
    Nat → Nat → String → LoopOutcome
  | 0, iter, lastOutput => ⟨lastOutput, iter, iter⟩
  | fuel + 1, iter, lastOutput =>
    let iteration := iter + 1
    if iteration > maxIterations then
      ⟨"Max iterations reached. Last output:\n" ++ lastOutput, iteration, iter⟩
    else
      let r := results iter
      if r.isComplete then ⟨r.output, iteration, iteration⟩
      else if !r.needsContinuation then ⟨r.output, iteration, iteration⟩
      else runLoopGo maxIterations results fuel iteration r.output

/-- `Daemon.runTaskWithLoop(task)` observed through its iteration counter:
starts with the stored iteration at 0 and loops until completion, no
continuation needed, or the cap fires. -/
def runTaskWithLoop (max_iterations : Nat) (results : Nat → IterationResult) :
    LoopOutcome :=
  let maxIterations := effectiveMaxIterations max_iterations
  runLoopGo maxIterations results (maxIterations + 1) 0 ""

/-- `Daemon.calculateRetryDelay(retryCount)` from daemon.ts:
`min(30 * 2^retryCount, 600)`. -/
def calculateRetryDelay (retryCount : Nat) : Nat :=
  min (30 * 2 ^ retryCount) 600

/-- Printed name of an error type (as interpolated into `errorDetails` and
passed to `setFailed`). -/
def errorTypeName : ErrorType → String
  | .rate_limit => "rate_limit"
  | .context_exceeded => "context_exceeded"
  | .agent_not_found => "agent_not_found"
  | .tool_result_missing => "tool_result_missing"
  | .thinking_block_error => "thinking_block_error"
  | .timeout => "timeout"
  | .unknown => "unknown"

/-- The failure handler of `Daemon.processNext` (daemon.ts lines 488-511):
`shouldRetry` excludes `agent_not_found` and `context_exceeded`;
`canRetry = shouldRetry && scheduleRetry(id, calculateRetryDelay(retry_count))`
with short-circuit evaluation; on `!canRetry` the task is permanently failed
via `setFailed(id, "[type] msg", type)`. -/
def processNextFailure (st : QueueState) (id : Nat) (errorType : ErrorType)
    (errorMsg : String) (now : Nat) : QueueState :=
  match findTask st id with
  | none => st
  | some updatedTask =>
    let shouldRetry := !(errorType == ErrorType.agent_not_found)
      && !(errorType == ErrorType.context_exceeded)
    let retryDelay := calculateRetryDelay updatedTask.retry_count
    let attempt := if shouldRetry then scheduleRetry st id retryDelay now
      else (false, st)
    let errorDetails := "[" ++ errorTypeName errorType ++ "] " ++ errorMsg
    if attempt.1 then attempt.2
    else setFailed attempt.2 id errorDetails (some (errorTypeName errorType)) now

/-! Input validation from src/src/validation.ts. -/

/-- The result record of the validators. -/
structure ValidationResult where
  valid : Bool
  error : Option String
deriving DecidableEq, Repr

/-- `MAX_PROMPT_LENGTH` from validation.ts. -/
def MAX_PROMPT_LENGTH : Nat := 10000

/-- `MAX_PROJECT_PATH_LENGTH` from validation.ts. -/
def MAX_PROJECT_PATH_LENGTH : Nat := 500

/-- JavaScript `s.trim()` on a character list (ASCII whitespace). -/
def trimChars (s : List Char) : List Char :=
  ((s.dropWhile Char.isWhitespace).reverse.dropWhile Char.isWhitespace).reverse

/-- `validatePrompt(prompt)` from validation.ts. -/
def validatePrompt (prompt : String) : ValidationResult :=
  if prompt = "" then ⟨false, some "Prompt is required"⟩
  else
    let trimmed := trimChars prompt.toList
    if trimmed.length = 0 then ⟨false, some "Prompt cannot be empty"⟩
    else if trimmed.length > MAX_PROMPT_LENGTH then
      ⟨false, some "Prompt too long (max 10000 chars)"⟩
    else ⟨true, none⟩

/-- JavaScript `pat.isPrefixOf`-style `^...` regex anchor on strings. -/
def startsWithStr (s pre : String) : Bool :=
  pre.toList.isPrefixOf s.toList

/-- `validateProjectPath(path)` from validation.ts.  The dangerous patterns
are `/\.\./`, `/^\/etc/`, `/^\/root(?!\/projects)/`, `/^\/var\/log/`,
`/^\/proc/`, `/^\/sys/`; the negative lookahead means: starts with `/root`
but not with `/root/projects`. -/
def validateProjectPath (path : Option String) : ValidationResult :=
  match path with
  | none => ⟨true, none⟩
  | some p =>
    if p = "" then ⟨true, none⟩
    else if p.toList.length > MAX_PROJECT_PATH_LENGTH then
      ⟨false, some "Project path too long (max 500 chars)"⟩
    else if containsStr p ".."
        || startsWithStr p "/etc"
        || (startsWithStr p "/root" && !startsWithStr p "/root/projects")
        || startsWithStr p "/var/log"
        || startsWithStr p "/proc"
        || startsWithStr p "/sys" then
      ⟨false, some "Invalid project path"⟩
    else ⟨true, none⟩

/-! Specification-side predicates used to state the claims. -/

/-- Eligibility as the specification words it: pending, `retry_after` absent
or elapsed, and `depends_on` absent or referencing a task with status done. -/
def EligibleSpec (st : QueueState) (now : Nat) (t : Task) : Prop :=
  t.status = TaskStatus.pending
    ∧ (match t.retry_after with
       | none => True
       | some r => r ≤ now)
    ∧ (match t.depends_on with
       | none => True
       | some pid => ∃ d ∈ st, d.id = pid ∧ d.status = TaskStatus.done)

instance (st : QueueState) (now : Nat) (t : Task) :
    Decidable (EligibleSpec st now t) := by
  unfold EligibleSpec
  rcases hr : t.retry_after with _ | r <;> rcases hd : t.depends_on with _ | pid <;>
    simp only [hr, hd] <;> exact inferInstance

/-- Lexicographic order on the `(priority-rank, created_at)` key, with rank
urgent=0, high=1, medium=2, low=3, as the specification words it. -/
def KeyLE (a b : Task) : Prop :=
  priorityRank a.priority < priorityRank b.priority
    ∨ (priorityRank a.priority = priorityRank b.priority
       ∧ a.created_at ≤ b.created_at)

instance (a b : Task) : Decidable (KeyLE a b) := by
  unfold KeyLE
  exact inferInstance

/-- A strong completion signal is present (the specification's three
case-insensitive phrases). -/
def HasStrongSignal (output : String) : Prop :=
  ∃ s ∈ ["[task_complete]", "todos completed:", "all todos completed"],
    containsSub (lowerChars output) (String.toList s) = true

instance (output : String) : Decidable (HasStrongSignal output) := by
  unfold HasStrongSignal
  exact inferInstance

/-- A weak completion signal is present (the specification's eight
case-insensitive phrases). -/
def HasWeakSignal (output : String) : Prop :=
  ∃ s ∈ ["task complete", "task completed", "successfully completed",
         "all done", "finished successfully", "completed successfully",
         "nothing left to do", "all steps completed"],
    containsSub (lowerChars output) (String.toList s) = true

instance (output : String) : Decidable (HasWeakSignal output) := by
  unfold HasWeakSignal
  exact inferInstance

/-- A planning phrase occurs strictly after the last occurrence of the
substring "complete" in the lowercased output. -/
def PlanningAfterComplete (output : String) : Prop :=
  ∃ p ∈ completionPlanningPhrases,
    lastIdx (lowerChars output) (String.toList p)
        > lastIdx (lowerChars output) (String.toList "complete")
      ∧ lastIdx (lowerChars output) (String.toList "complete") ≥ 0

instance (output : String) : Decidable (PlanningAfterComplete output) := by
  unfold PlanningAfterComplete
  exact inferInstance

/-! Concrete fixtures for witnesses and counterexamples. -/

/-- A baseline freshly created task row. -/
def baseTask : Task :=
  { id := 1
    prompt := "Build the API"
    project_path := none
    status := TaskStatus.pending
    priority := TaskPriority.medium
    result := none
    error := none
    error_type := none
    session_id := none
    iteration := 0
    max_iterations := 10
    retry_count := 0
    max_retries := 3
    retry_after := none
    created_at := 0
    started_at := none
    completed_at := none
    created_by := none
    source := "cli"
    depends_on := none }

/-- Priority-ordering scenario: low, urgent and high tasks inserted in that
order. -/
def taskLow : Task :=
  { baseTask with
    id := 1
    prompt := "Low"
    priority := TaskPriority.low
    created_at := 1 }

/-- The urgent task of the priority-ordering scenario. -/
def taskUrgent : Task :=
  { baseTask with
    id := 2
    prompt := "Urgent"
    priority := TaskPriority.urgent
    created_at := 2 }

/-- The high task of the priority-ordering scenario. -/
def taskHigh : Task :=
  { baseTask with
    id := 3
    prompt := "High"
    priority := TaskPriority.high
    created_at := 3 }

/-- The priority-ordering scenario state. -/
def stPriority : QueueState := [taskLow, taskUrgent, taskHigh]

/-- Parent/child dependency scenario: child id 2 depends on parent id 1. -/
def taskParent : Task := { baseTask with id := 1, prompt := "Parent" }

/-- The dependent child of the dependency scenario. -/
def taskChild : Task :=
  { baseTask with
    id := 2
    prompt := "Child"
    created_at := 1
    depends_on := some 1 }

/-- The dependency scenario state. -/
def stDependency : QueueState := [taskParent, taskChild]

/-- An iteration result that neither completes nor stops needing
continuation. -/
def resultKeepGoing : IterationResult :=
  { output := "still working"
    sessionId := some "s1"
    isComplete := false
    needsContinuation := true }

/-- A message list whose extracted output contains planning language and no
completion signal. -/
def msgsLetMe : List Message :=
  [{ role := some "assistant"
     parts := [{ type := "text", text := some "let me check the files", tool := none }] }]

/-- A create request whose numeric fields are all zero. -/
def reqZeros : TaskCreate :=
  { prompt := "zeroes"
    project_path := none
    priority := none
    max_iterations := some 0
    max_retries := some 0
    created_by := none
    source := "cli"
    depends_on := some 0 }

/-- A create request with a prompt that is invalid (blank). -/
def reqBlank : TaskCreate :=
  { prompt := ""
    project_path := none
    priority := none
    max_iterations := none
    max_retries := none
    created_by := none
    source := "cli"
    depends_on := none }

/-! Helper lemmas about the ordering key of `getNextRetryable`. -/

theorem keyLt_iff (a b : Task) :
    keyLt a b = true ↔
      (priorityRank a.priority < priorityRank b.priority
        ∨ (priorityRank a.priority = priorityRank b.priority
           ∧ a.created_at < b.created_at)) := by
  unfold keyLt
  simp [Bool.or_eq_true, Bool.and_eq_true, decide_eq_true_eq, beq_iff_eq]

theorem keyLt_eq_false_iff (a b : Task) :
    keyLt a b = false ↔
      ¬(priorityRank a.priority < priorityRank b.priority
        ∨ (priorityRank a.priority = priorityRank b.priority
           ∧ a.created_at < b.created_at)) := by
  rw [Bool.eq_false_iff]
  exact not_congr (keyLt_iff a b)

theorem keyLt_irrefl (a : Task) : keyLt a a = false := by
  rw [keyLt_eq_false_iff]
  omega

theorem keyLt_asymm (a b : Task) (h : keyLt a b = true) : keyLt b a = false := by
  rw [keyLt_iff] at h
  rw [keyLt_eq_false_iff]
  omega

theorem keyLt_trans_not (u t b : Task) (h1 : keyLt u t = true)
    (h2 : keyLt b t = false) : keyLt u b = true := by
  rw [keyLt_iff] at h1 ⊢
  rw [keyLt_eq_false_iff] at h2
  omega

theorem selectMin_eq_none_iff (l : List Task) : selectMin l = none ↔ l = [] := by
  cases l with
  | nil => simp [selectMin]
  | cons t rest =>
    simp only [selectMin]
    cases hm : selectMin rest
    · simp [hm]
    · simp only [hm]
      split <;> simp

theorem selectMin_spec (l : List Task) (c : Task) (hc : selectMin l = some c) :
    c ∈ l ∧ ∀ u ∈ l, keyLt u c = false := by
  induction l generalizing c with
  | nil => simp [selectMin] at hc
  | cons t rest ih =>
    simp only [selectMin] at hc
    cases hm : selectMin rest with
    | none =>
      rw [hm] at hc
      dsimp only at hc
      obtain rfl : t = c := by simpa using hc
      have hrest : rest = [] := (selectMin_eq_none_iff rest).mp hm
      subst hrest
      refine ⟨List.mem_singleton_self t, ?_⟩
      intro u hu
      rw [List.mem_singleton] at hu
      subst hu
      exact keyLt_irrefl u
    | some b =>
      rw [hm] at hc
      dsimp only at hc
      obtain ⟨hbmem, hbmin⟩ := ih b hm
      by_cases hk : keyLt b t = true
      · rw [if_pos hk] at hc
        obtain rfl : b = c := by simpa using hc
        refine ⟨List.mem_cons_of_mem t hbmem, ?_⟩
        intro u hu
        rcases List.mem_cons.mp hu with hu | hu
        · subst hu
          exact keyLt_asymm b u hk
        · exact hbmin u hu
      · have hk' : keyLt b t = false := by
          cases hkk : keyLt b t
          · rfl
          · exact absurd hkk hk
        rw [if_neg hk] at hc
        obtain rfl : t = c := by simpa using hc
        refine ⟨List.mem_cons_self t rest, ?_⟩
        intro u hu
        rcases List.mem_cons.mp hu with hu | hu
        · subst hu
          exact keyLt_irrefl u
        · cases hkc : keyLt u t
          · rfl
          · exact absurd (hbmin u hu) (by simp [keyLt_trans_not u t b hkc hk'])

theorem eligibleB_iff (st : QueueState) (now : Nat) (t : Task) :
    eligibleB st now t = true ↔ EligibleSpec st now t := by
  unfold eligibleB EligibleSpec depSatisfied
  rcases hr : t.retry_after with _ | r <;> rcases hd : t.depends_on with _ | pid <;>
    simp [hr, hd, List.any_eq_true, Bool.and_eq_true, beq_iff_eq,
      decide_eq_true_eq, and_assoc]

theorem KeyLE_iff (a b : Task) : KeyLE a b ↔ keyLt b a = false := by
  unfold KeyLE
  rw [keyLt_eq_false_iff]
  omega

/-- Claim C1: `getNextRetryable` returns an eligible pending task minimizing
the lexicographic (priority-rank, created_at) key — eligibility meaning
retry_after absent or elapsed and depends_on absent or done — it returns
absent exactly when no eligible task exists, and it never returns a task
whose dependency is not done. -/
theorem c1_getNextRetryable_priority_fifo (st : QueueState) (now : Nat) :
    (getNextRetryable st now = none ↔ ∀ t ∈ st, ¬ EligibleSpec st now t) ∧
    (∀ t, getNextRetryable st now = some t →
      t ∈ st ∧ EligibleSpec st now t
        ∧ (∀ u ∈ st, EligibleSpec st now u → KeyLE t u)
        ∧ (∀ pid, t.depends_on = some pid →
            ∃ d ∈ st, d.id = pid ∧ d.status = TaskStatus.done)) := by
  constructor
  · rw [getNextRetryable, selectMin_eq_none_iff, List.filter_eq_nil_iff]
    constructor
    · intro h t ht hspec
      exact h t ht ((eligibleB_iff st now t).mpr hspec)
    · intro h t ht hb
      exact h t ht ((eligibleB_iff st now t).mp hb)
  · intro t ht
    rw [getNextRetryable] at ht
    obtain ⟨hmem, hmin⟩ := selectMin_spec _ t ht
    obtain ⟨hst, helig⟩ := List.mem_filter.mp hmem
    have hspec := (eligibleB_iff st now t).mp helig
    refine ⟨hst, hspec, ?_, ?_⟩
    · intro u hu huspec
      rw [KeyLE_iff]
      exact hmin u (List.mem_filter.mpr ⟨hu, (eligibleB_iff st now u).mpr huspec⟩)
    · intro pid hpid
      obtain ⟨-, -, hdep⟩ := hspec
      rw [hpid] at hdep
      exact hdep

/-- Witness for C1 on the literal priority scenario: the urgent task is
returned, it is eligible, and its key is at most the high task's key. -/
theorem c1_witness :
    getNextRetryable stPriority 10 = some taskUrgent
      ∧ EligibleSpec stPriority 10 taskUrgent ∧ KeyLE taskUrgent taskHigh := by
  have h := (c1_getNextRetryable_priority_fifo stPriority 10).2 taskUrgent (by decide)
  exact ⟨by decide, h.2.1,
    h.2.2.1 taskHigh (List.Mem.tail _ (List.Mem.tail _ (List.Mem.head _))) (by decide)⟩

/-! Helper lemmas about `findTask`, `updateTask` and `scheduleRetry`. -/

theorem findTask_updateTask_self (st : QueueState) (id : Nat) (f : Task → Task)
    (hf : ∀ t, (f t).id = t.id) :
    findTask (updateTask st id f) id = (findTask st id).map f := by
  induction st with
  | nil => rfl
  | cons a l ih =>
    unfold findTask updateTask at *
    simp only [List.map_cons]
    by_cases h : (a.id == id) = true
    · have hfa : ((f a).id == id) = true := by rw [hf a]; exact h
      rw [if_pos h]
      have e1 : List.find? (fun t => t.id == id)
          (f a :: List.map (fun t => if (t.id == id) = true then f t else t) l)
          = some (f a) := List.find?_cons_of_pos _ hfa
      have e2 : List.find? (fun t => t.id == id) (a :: l) = some a :=
        List.find?_cons_of_pos _ h
      rw [e1, e2]
      rfl
    · rw [if_neg h]
      have e1 : List.find? (fun t => t.id == id)
          (a :: List.map (fun t => if (t.id == id) = true then f t else t) l)
          = List.find? (fun t => t.id == id)
              (List.map (fun t => if (t.id == id) = true then f t else t) l) :=
        List.find?_cons_of_neg _ h
      have e2 : List.find? (fun t => t.id == id) (a :: l)
          = List.find? (fun t => t.id == id) l :=
        List.find?_cons_of_neg _ h
      rw [e1, e2]
      exact ih

theorem scheduleRetry_false_state (st : QueueState) (id delay now : Nat)
    (h : (scheduleRetry st id delay now).1 = false) :
    (scheduleRetry st id delay now).2 = st := by
  unfold scheduleRetry at *
  cases hf : findTask st id with
  | none => rfl
  | some t =>
    rw [hf] at h
    dsimp only at h ⊢
    by_cases hge : t.retry_count ≥ t.max_retries
    · rw [if_pos hge]
    · rw [if_neg hge] at h
      simp at h

theorem scheduleRetry_true_iff (st : QueueState) (id delay now : Nat) :
    (scheduleRetry st id delay now).1 = true ↔
      ∃ t, findTask st id = some t ∧ t.retry_count < t.max_retries := by
  unfold scheduleRetry
  cases hf : findTask st id with
  | none => simp
  | some t =>
    dsimp only
    by_cases hge : t.retry_count ≥ t.max_retries
    · rw [if_pos hge]
      constructor
      · intro h
        simp at h
      · rintro ⟨u, hu, hlt⟩
        obtain rfl : t = u := by simpa using hu
        omega
    · rw [if_neg hge]
      constructor
      · intro _
        exact ⟨t, rfl, by omega⟩
      · intro _
        rfl

/-- Claim C3: `scheduleRetry(id, delay)` succeeds exactly when the task
exists with `retry_count < max_retries`; on success it re-pends the task,
increments `retry_count` by one, stamps `retry_after = now + delay` and
clears iteration, session_id, started_at and error; on failure the state is
unchanged; and it preserves the invariant `retry_count ≤ max_retries`. -/
theorem c3_scheduleRetry_contract (st : QueueState) (id delay now : Nat) :
    ((scheduleRetry st id delay now).1 = true ↔
      ∃ t, findTask st id = some t ∧ t.retry_count < t.max_retries) ∧
    ((scheduleRetry st id delay now).1 = false →
      (scheduleRetry st id delay now).2 = st) ∧
    (∀ t, findTask st id = some t → t.retry_count < t.max_retries →
      findTask (scheduleRetry st id delay now).2 id = some
        { t with
          status := TaskStatus.pending
          retry_count := t.retry_count + 1
          retry_after := some (now + delay)
          iteration := 0
          session_id := none
          started_at := none
          error := none }) ∧
    ((∀ a ∈ st, ∀ b ∈ st, a.id = b.id → a = b) →
      (∀ t ∈ st, t.retry_count ≤ t.max_retries) →
      ∀ t ∈ (scheduleRetry st id delay now).2, t.retry_count ≤ t.max_retries) := by
  refine ⟨scheduleRetry_true_iff st id delay now,
    scheduleRetry_false_state st id delay now, ?_, ?_⟩
  · intro t hfind hlt
    unfold scheduleRetry
    rw [hfind]
    dsimp only
    rw [if_neg (by omega)]
    dsimp only
    rw [findTask_updateTask_self st id]
    · rw [hfind]
      rfl
    · intro u
      rfl
  · intro huniq hinv t' ht'
    unfold scheduleRetry at ht'
    cases hf : findTask st id with
    | none =>
      rw [hf] at ht'
      exact hinv t' ht'
    | some tk =>
      rw [hf] at ht'
      dsimp only at ht'
      by_cases hge : tk.retry_count ≥ tk.max_retries
      · rw [if_pos hge] at ht'
        exact hinv t' ht'
      · rw [if_neg hge] at ht'
        dsimp only [updateTask] at ht'
        rcases List.mem_map.mp ht' with ⟨a, ha, rfl⟩
        by_cases hid : (a.id == id) = true
        · have haid : a.id = id := by simpa using hid
          have htk_mem : tk ∈ st := List.mem_of_find?_eq_some hf
          have htk_id : tk.id = id := by simpa using List.find?_some hf
          obtain rfl : a = tk := huniq a ha tk htk_mem (by rw [haid, htk_id])
          rw [if_pos hid]
          dsimp only
          have := hinv a ha
          omega
        · rw [if_neg hid]
          exact hinv a ha

/-- Witness for C3: a fresh task with retry_count 0 and max_retries 3 is
successfully rescheduled with the documented field updates. -/
theorem c3_witness :
    (scheduleRetry [baseTask] 1 30 100).1 = true ∧
    findTask (scheduleRetry [baseTask] 1 30 100).2 1 = some
      { baseTask with
        status := TaskStatus.pending
        retry_count := 1
        retry_after := some 130
        iteration := 0
        session_id := none
        started_at := none
        error := none } := by
  have h := c3_scheduleRetry_contract [baseTask] 1 30 100
  refine ⟨h.1.mpr ⟨baseTask, by decide, by decide⟩, ?_⟩
  exact h.2.2.1 baseTask (by decide) (by decide)

/-! The task-level loop: iteration bound and the max-iterations sentinel. -/

theorem runLoopGo_stored_le (maxI : Nat) (results : Nat → IterationResult) :
    ∀ (fuel iter : Nat) (lastOutput : String), iter ≤ maxI →
      (runLoopGo maxI results fuel iter lastOutput).storedIteration ≤ maxI + 1 := by
  intro fuel
  induction fuel with
  | zero =>
    intro iter lastOutput h
    simp only [runLoopGo]
    omega
  | succ n ih =>
    intro iter lastOutput h
    simp only [runLoopGo]
    by_cases hgt : iter + 1 > maxI
    · rw [if_pos hgt]
      dsimp only
      omega
    · rw [if_neg hgt]
      by_cases hc : (results iter).isComplete = true
      · rw [if_pos hc]
        dsimp only
        omega
      · rw [if_neg hc]
        by_cases hn : (!(results iter).needsContinuation) = true
        · rw [if_pos hn]
          dsimp only
          omega
        · rw [if_neg hn]
          exact ih (iter + 1) (results iter).output (by omega)

/-- Counterexample to C4: with `max_iterations = 1` and an iteration that
neither completes nor stops needing continuation, the loop returns the
sentinel but the stored iteration field ends at 2 > 1, so
"iteration ≤ max_iterations at all times" fails on the code (the loop
increments and stores the counter before checking the cap). -/
theorem c4_counterexample :
    (runTaskWithLoop 1 (fun _ => resultKeepGoing)).storedIteration = 2 ∧
    ¬ ((runTaskWithLoop 1 (fun _ => resultKeepGoing)).storedIteration ≤ 1) ∧
    (runTaskWithLoop 1 (fun _ => resultKeepGoing)).result
      = "Max iterations reached. Last output:\n" ++ "still working" := by
  exact ⟨rfl, by decide, rfl⟩

/-- Claim C4 as amended: the stored iteration never exceeds
`max_iterations + 1` (the cap check runs after the increment is stored), the
cap produces the structured sentinel string rather than a failure, and with
`max_iterations = 1` the sentinel is returned after exactly one iteration
that neither completes nor stops needing continuation. -/
theorem c4_amended_iteration_bound :
    (∀ (mi : Nat) (results : Nat → IterationResult),
      (runTaskWithLoop mi results).storedIteration ≤ effectiveMaxIterations mi + 1) ∧
    (∀ results : Nat → IterationResult,
      (results 0).isComplete = false → (results 0).needsContinuation = true →
      runTaskWithLoop 1 results =
        { result := "Max iterations reached. Last output:\n" ++ (results 0).output
          storedIteration := 2
          iterationsRun := 1 }) := by
  constructor
  · intro mi results
    exact runLoopGo_stored_le (effectiveMaxIterations mi) results
      (effectiveMaxIterations mi + 1) 0 "" (by omega)
  · intro results h1 h2
    unfold runTaskWithLoop effectiveMaxIterations
    simp [runLoopGo, h1, h2]

/-- Witness for C4's amended statement on a concrete never-completing
iteration oracle. -/
theorem c4_witness :
    runTaskWithLoop 1 (fun _ => resultKeepGoing) =
      { result := "Max iterations reached. Last output:\nstill working"
        storedIteration := 2
        iterationsRun := 1 } ∧
    (runTaskWithLoop 5 (fun _ => resultKeepGoing)).storedIteration ≤ 6 := by
  have h := c4_amended_iteration_bound
  exact ⟨h.2 (fun _ => resultKeepGoing) rfl rfl, h.1 5 (fun _ => resultKeepGoing)⟩

/-! The stability branch versus the explicit-idle branch. -/

/-- Counterexample to C9: on a session whose output contains planning
language and no completion signal (and no incomplete todos), the stability
branch returns a different result from the idle branch. -/
theorem c9_counterexample :
    stabilityBranchResult msgsLetMe (some "s") false
      ≠ idleBranchResult msgsLetMe (some "s") false := by
  decide

/-- Claim C9 as amended: the stability branch applies the same
output-extraction and incomplete-todos handling as the idle branch (identical
results when todos are incomplete, identical output always), but in the
all-todos-done case it unconditionally returns isComplete = true and
needsContinuation = false, whereas the idle branch computes those flags from
the completion and continuation detectors. -/
theorem c9_amended_stability_vs_idle :
    ∀ (messages : List Message) (sid : Option String) (inc : Bool),
      (stabilityBranchResult messages sid inc).output
          = (idleBranchResult messages sid inc).output ∧
      stabilityBranchResult messages sid true = idleBranchResult messages sid true ∧
      stabilityBranchResult messages sid false =
        { output := extractOutputFromMessages messages
          sessionId := sid
          isComplete := true
          needsContinuation := false } := by
  intro messages sid inc
  unfold stabilityBranchResult idleBranchResult
  cases inc <;> simp

/-! JavaScript falsiness of numeric zero in `create`. -/

/-- Claim C10: `create` replaces zero-valued numeric fields with their
defaults because the insert uses `||`: `max_iterations = 0` is stored as 10,
`max_retries = 0` as 3, and `depends_on = 0` as no dependency. -/
theorem c10_create_falsy_defaults (st : QueueState) (req : TaskCreate) (now : Nat) :
    (req.max_iterations = some 0 → (create st req now).1.max_iterations = 10) ∧
    (req.max_retries = some 0 → (create st req now).1.max_retries = 3) ∧
    (req.depends_on = some 0 → (create st req now).1.depends_on = none) := by
  refine ⟨fun h => ?_, fun h => ?_, fun h => ?_⟩ <;>
    simp [create, orDefaultNat, h]

/-- Witness for C10 on a request whose numeric fields are all zero. -/
theorem c10_witness :
    (create [] reqZeros 0).1.max_iterations = 10 ∧
    (create [] reqZeros 0).1.max_retries = 3 ∧
    (create [] reqZeros 0).1.depends_on = none := by
  have h := c10_create_falsy_defaults [] reqZeros 0
  exact ⟨h.1 rfl, h.2.1 rfl, h.2.2 rfl⟩

/-! The Scheduler failure handler: permanent types, backoff, retry. -/

/-- Claim C6: at the Scheduler boundary, `context_exceeded` and
`agent_not_found` failures are permanently failed via `setFailed` without
attempting `scheduleRetry`; every other error type attempts a retry with
`delay_seconds = min(30 * 2^retry_count, 600)` — 30, 60, 120, 240, 480,
then 600 for all higher counts — and the task is permanently failed exactly
when `scheduleRetry` returns false. -/
theorem c6_retry_policy (st : QueueState) (id : Nat) (et : ErrorType)
    (msg : String) (now : Nat) (t : Task) (hfind : findTask st id = some t) :
    ((et = ErrorType.context_exceeded ∨ et = ErrorType.agent_not_found) →
      processNextFailure st id et msg now
        = setFailed st id ("[" ++ errorTypeName et ++ "] " ++ msg)
            (some (errorTypeName et)) now) ∧
    (et ≠ ErrorType.context_exceeded → et ≠ ErrorType.agent_not_found →
      ((scheduleRetry st id (min (30 * 2 ^ t.retry_count) 600) now).1 = true →
        processNextFailure st id et msg now
          = (scheduleRetry st id (min (30 * 2 ^ t.retry_count) 600) now).2) ∧
      ((scheduleRetry st id (min (30 * 2 ^ t.retry_count) 600) now).1 = false →
        processNextFailure st id et msg now
          = setFailed st id ("[" ++ errorTypeName et ++ "] " ++ msg)
            (some (errorTypeName et)) now)) ∧
    (calculateRetryDelay 0 = 30 ∧ calculateRetryDelay 1 = 60
      ∧ calculateRetryDelay 2 = 120 ∧ calculateRetryDelay 3 = 240
      ∧ calculateRetryDelay 4 = 480) ∧
    (∀ k, 5 ≤ k → calculateRetryDelay k = 600) := by
  refine ⟨?_, ?_, by decide, ?_⟩
  · intro hperm
    unfold processNextFailure
    rw [hfind]
    dsimp only
    have hc : ¬((!(et == ErrorType.agent_not_found)
        && !(et == ErrorType.context_exceeded)) = true) := by
      simp only [Bool.and_eq_true, Bool.not_eq_true', beq_eq_false_iff_ne, ne_eq]
      rcases hperm with rfl | rfl <;> tauto
    rw [if_neg hc]
    rfl
  · intro hne1 hne2
    have hc : (!(et == ErrorType.agent_not_found)
        && !(et == ErrorType.context_exceeded)) = true := by
      simp only [Bool.and_eq_true, Bool.not_eq_true', beq_eq_false_iff_ne, ne_eq]
      exact ⟨hne2, hne1⟩
    constructor
    · intro htrue
      unfold processNextFailure
      rw [hfind]
      dsimp only
      rw [if_pos hc]
      unfold calculateRetryDelay
      rw [if_pos htrue]
    · intro hfalse
      unfold processNextFailure
      rw [hfind]
      dsimp only
      rw [if_pos hc]
      unfold calculateRetryDelay
      rw [if_neg (by simp [hfalse]), scheduleRetry_false_state _ _ _ _ hfalse]
  · intro k hk
    unfold calculateRetryDelay
    have h2 : 2 ^ 5 ≤ 2 ^ k := Nat.pow_le_pow_right (by omega) hk
    have h3 : 30 * 2 ^ 5 ≤ 30 * 2 ^ k := Nat.mul_le_mul_left 30 h2
    have h4 : (30 * 2 ^ 5 : Nat) = 960 := by norm_num
    omega

/-- Witness for C6: a timeout failure of a fresh task is retried with the
30-second first backoff; the capped delay value is also exercised. -/
theorem c6_witness :
    processNextFailure [baseTask] 1 ErrorType.timeout "boom" 100
      = (scheduleRetry [baseTask] 1 (min (30 * 2 ^ baseTask.retry_count) 600) 100).2 ∧
    processNextFailure [baseTask] 1 ErrorType.context_exceeded "ctx" 100
      = setFailed [baseTask] 1 "[context_exceeded] ctx" (some "context_exceeded") 100 ∧
    calculateRetryDelay 7 = 600 := by
  have h := c6_retry_policy [baseTask] 1 ErrorType.timeout "boom" 100 baseTask (by decide)
  have h2 := c6_retry_policy [baseTask] 1 ErrorType.context_exceeded "ctx" 100 baseTask (by decide)
  exact ⟨(h.2.1 (by decide) (by decide)).1 (by decide),
    h2.1 (Or.inl rfl),
    h.2.2.2 7 (by omega)⟩

/-! The dependency cascade: defined and correct in the queue layer, but not
invoked by the Scheduler's permanent-failure path. -/

/-- Evaluation of the code at C7's failing input: when the parent (id 1) of a
pending dependent (id 2) is permanently failed through the Scheduler's
failure handler, the dependent task is left pending with no error_type — the
handler never calls `failDependentTasks`.  The cascade itself, when invoked
directly on the queue, does stamp the dependent failed with
`dependency_failed`, matching the claim's intended behavior. -/
theorem c7_cascade_not_invoked :
    findTask (processNextFailure stDependency 1 ErrorType.context_exceeded
        "context length exceeded" 5) 2 = some taskChild ∧
    taskChild.status = TaskStatus.pending ∧
    taskChild.error_type = none ∧
    (findTask (failDependentTasks
        (setFailed stDependency 1 "parent failed" (some "context_exceeded") 5)
        1 "parent failed" 6) 2).map Task.status = some TaskStatus.failed ∧
    (findTask (failDependentTasks
        (setFailed stDependency 1 "parent failed" (some "context_exceeded") 5)
        1 "parent failed" 6) 2).map Task.error_type
      = some (some "dependency_failed") := by
  refine ⟨by decide, rfl, rfl, by decide, by decide⟩

/-! The error classifier. -/

/-- Claim C5: the classifier lowercases the message extracted from a string
or from the nested message/data/error fields, and applies the first-match
substring rules in exactly the specification's order; the examples exercise
extraction from a nested object and the rule order (a message matching both
the rate-limit and the timeout rule classifies as rate_limit). -/
theorem c5_classifier_first_match :
    (∀ e : Option ErrVal, detectErrorType e = classifySpec (getErrorMessage e)) ∧
    detectErrorType (some (.vstr "Context length exceeded"))
      = ErrorType.context_exceeded ∧
    detectErrorType (some (.vstr "Request timed out while the rate limit cooled"))
      = ErrorType.rate_limit ∧
    getErrorMessage
        (some (.vobj none none (some (.vobj (some (.vstr "Agent X not found")) none none))))
      = "agent x not found" ∧
    detectErrorType
        (some (.vobj none none (some (.vobj (some (.vstr "Agent X not found")) none none))))
      = ErrorType.agent_not_found ∧
    detectErrorType none = ErrorType.unknown := by
  exact ⟨fun e => rfl, by decide, by decide, by decide, by decide, by decide⟩

/-! Input validation: characterizations of the validators, and the fact that
`create` itself inserts without validating. -/

theorem dropWhile_ws_replicate_a (n : Nat) :
    (List.replicate n 'a').dropWhile Char.isWhitespace = List.replicate n 'a' := by
  cases n with
  | zero => rfl
  | succ k =>
    rw [List.replicate_succ, List.dropWhile_cons]
    simp only [show 'a'.isWhitespace = false from by decide]
    simp

theorem trimChars_replicate_a (n : Nat) :
    trimChars (List.replicate n 'a') = List.replicate n 'a' := by
  unfold trimChars
  rw [dropWhile_ws_replicate_a, List.reverse_replicate,
    dropWhile_ws_replicate_a, List.reverse_replicate]

theorem validatePrompt_valid_iff (p : String) :
    (validatePrompt p).valid = true ↔
      (1 ≤ (trimChars p.toList).length ∧ (trimChars p.toList).length ≤ 10000) := by
  unfold validatePrompt
  by_cases h0 : p = ""
  · subst h0
    simp [trimChars]
  · rw [if_neg h0]
    by_cases hz : (trimChars p.toList).length = 0
    · rw [if_pos hz]
      constructor
      · intro h
        exact absurd h (by simp)
      · intro h
        omega
    · rw [if_neg hz]
      by_cases hl : (trimChars p.toList).length > MAX_PROMPT_LENGTH
      · rw [if_pos hl]
        simp only [MAX_PROMPT_LENGTH] at hl
        constructor
        · intro h
          exact absurd h (by simp)
        · intro ⟨h1, h2⟩
          omega
      · rw [if_neg hl]
        simp only [MAX_PROMPT_LENGTH] at hl
        constructor
        · intro _
          omega
        · intro _
          rfl

theorem validateProjectPath_valid_iff (p : String) :
    (validateProjectPath (some p)).valid = true ↔
      (p = "" ∨ (p.toList.length ≤ 500 ∧
        (containsStr p ".."
          || startsWithStr p "/etc"
          || (startsWithStr p "/root" && !startsWithStr p "/root/projects")
          || startsWithStr p "/var/log"
          || startsWithStr p "/proc"
          || startsWithStr p "/sys") = false)) := by
  unfold validateProjectPath
  dsimp only
  by_cases h0 : p = ""
  · simp [h0]
  · rw [if_neg h0]
    by_cases hl : p.toList.length > MAX_PROJECT_PATH_LENGTH
    · rw [if_pos hl]
      simp only [MAX_PROJECT_PATH_LENGTH] at hl
      constructor
      · intro h
        exact absurd h (by simp)
      · rintro (h | ⟨hle, -⟩)
        · exact absurd h h0
        · omega
    · rw [if_neg hl]
      simp only [MAX_PROJECT_PATH_LENGTH] at hl
      by_cases hd : (containsStr p ".."
          || startsWithStr p "/etc"
          || (startsWithStr p "/root" && !startsWithStr p "/root/projects")
          || startsWithStr p "/var/log"
          || startsWithStr p "/proc"
          || startsWithStr p "/sys") = true
      · rw [if_pos hd]
        constructor
        · intro h
          exact absurd h (by simp)
        · rintro (h | ⟨-, hfalse⟩)
          · exact absurd h h0
          · simp [hfalse] at hd
      · rw [if_neg hd]
        constructor
        · intro _
          exact Or.inr ⟨by omega, Bool.eq_false_iff.mpr hd⟩
        · intro _
          rfl

/-- Counterexample to C8: `TaskQueue.create` performs no validation — a
request whose prompt is blank (rejected by `validatePrompt`) still inserts a
row and returns it. -/
theorem c8_counterexample :
    (validatePrompt "").valid = false ∧
    (create [] reqBlank 0).2.length = 1 ∧
    (create [] reqBlank 0).1.prompt = "" := by
  exact ⟨rfl, rfl, rfl⟩

/-- Claim C8 as amended: `create` itself always inserts the row unvalidated;
the validation lives in `validatePrompt` / `validateProjectPath` (called by
the ingress adapters before `create`), which implement exactly the stated
rules: a prompt blank after trimming or longer than 10000 characters after
trimming is rejected (length 10000 accepted, 10001 rejected), and a
project_path containing "..", beginning with /etc, /var/log, /proc, /sys or
/root (except /root/projects), or exceeding 500 characters is rejected. -/
theorem c8_amended_validation :
    (∀ (st : QueueState) (req : TaskCreate) (now : Nat),
      (create st req now).2 = st ++ [(create st req now).1]) ∧
    (∀ p : String, (validatePrompt p).valid = true ↔
      (1 ≤ (trimChars p.toList).length ∧ (trimChars p.toList).length ≤ 10000)) ∧
    (validatePrompt (String.mk (List.replicate 10000 'a'))).valid = true ∧
    (validatePrompt (String.mk (List.replicate 10001 'a'))).valid = false ∧
    (∀ p : String, (validateProjectPath (some p)).valid = true ↔
      (p = "" ∨ (p.toList.length ≤ 500 ∧
        (containsStr p ".."
          || startsWithStr p "/etc"
          || (startsWithStr p "/root" && !startsWithStr p "/root/projects")
          || startsWithStr p "/var/log"
          || startsWithStr p "/proc"
          || startsWithStr p "/sys") = false))) ∧
    (validateProjectPath (some "../etc/passwd")).valid = false ∧
    (validateProjectPath (some "/root/projects/foo")).valid = true ∧
    (validateProjectPath (some "/root/other")).valid = false ∧
    (validateProjectPath (some "/var/log/syslog")).valid = false := by
  refine ⟨fun st req now => rfl, validatePrompt_valid_iff, ?_, ?_,
    validateProjectPath_valid_iff, by decide, by decide, by decide, by decide⟩
  · rw [validatePrompt_valid_iff]
    have ht : (String.mk (List.replicate 10000 'a')).toList
        = List.replicate 10000 'a' := rfl
    rw [ht, trimChars_replicate_a, List.length_replicate]
    omega
  · have ht : (String.mk (List.replicate 10001 'a')).toList
        = List.replicate 10001 'a' := rfl
    rw [Bool.eq_false_iff]
    intro hv
    have h := (validatePrompt_valid_iff (String.mk (List.replicate 10001 'a'))).mp hv
    rw [ht, trimChars_replicate_a, List.length_replicate] at h
    omega

/-! Completion detection: substring monotonicity and signal-list bridges. -/

theorem containsSub_of_isPrefixOf (hay p q : List Char) (hpq : p <+: q)
    (h : containsSub hay q = true) : containsSub hay p = true := by
  induction hay with
  | nil =>
    unfold containsSub at h ⊢
    have hq : q = [] := by simpa [List.isEmpty_iff] using h
    subst hq
    have hp : p = [] := List.prefix_nil.mp hpq
    simp [hp]
  | cons c t ih =>
    unfold containsSub at h ⊢
    rw [Bool.or_eq_true] at h ⊢
    rcases h with h | h
    · left
      rw [ List.isPrefixOf_iff_prefix] at h ⊢
      exact hpq.trans h
    · right
      exact ih h

theorem hasStrong_code_iff (o : String) :
    (STRONG_COMPLETION_SIGNALS.any
        (fun signal => containsSub (lowerChars o) (lowerChars signal)) = true)
      ↔ HasStrongSignal o := by
  have e1 : lowerChars "[TASK_COMPLETE]" = "[task_complete]".toList := by decide
  have e2 : lowerChars "[task_complete]" = "[task_complete]".toList := by decide
  have e3 : lowerChars "todos completed:" = "todos completed:".toList := by decide
  have e4 : lowerChars "all todos completed" = "all todos completed".toList := by decide
  unfold STRONG_COMPLETION_SIGNALS HasStrongSignal
  simp only [List.any_cons, List.any_nil, Bool.or_eq_true, e1, e2, e3, e4,
    List.mem_cons, List.mem_singleton, List.not_mem_nil]
  constructor
  · intro h
    rcases h with h | h | h | h | h
    · exact ⟨"[task_complete]", by tauto⟩
    · exact ⟨"[task_complete]", by tauto⟩
    · exact ⟨"todos completed:", by tauto⟩
    · exact ⟨"all todos completed", by tauto⟩
    · exact absurd h (by simp)
  · rintro ⟨s, hs, hc⟩
    rcases hs with rfl | rfl | (rfl | hfalse)
    · tauto
    · tauto
    · tauto
    · exact hfalse.elim

theorem hasWeak_code_iff (o : String) (hns : ¬ HasStrongSignal o) :
    (COMPLETION_SIGNALS.any
        (fun s => containsSub (lowerChars o) (lowerChars s)) = true)
      ↔ HasWeakSignal o := by
  have e1 : lowerChars "[TASK_COMPLETE]" = "[task_complete]".toList := by decide
  have e2 : lowerChars "[task_complete]" = "[task_complete]".toList := by decide
  have e3 : lowerChars "task complete" = "task complete".toList := by decide
  have e4 : lowerChars "task completed" = "task completed".toList := by decide
  have e5 : lowerChars "successfully completed" = "successfully completed".toList := by
    decide
  have e6 : lowerChars "all done" = "all done".toList := by decide
  have e7 : lowerChars "finished successfully" = "finished successfully".toList := by
    decide
  have e8 : lowerChars "completed successfully" = "completed successfully".toList := by
    decide
  have e9 : lowerChars "nothing left to do" = "nothing left to do".toList := by decide
  have e10 : lowerChars "all steps completed" = "all steps completed".toList := by decide
  have e11 : lowerChars "all todos completed" = "all todos completed".toList := by decide
  have e12 : lowerChars "todos completed: " = "todos completed: ".toList := by decide
  have hstrong1 : ¬ containsSub (lowerChars o) ("[task_complete]".toList) = true :=
    fun hc => hns ⟨"[task_complete]", by simp, hc⟩
  have hstrong3 : ¬ containsSub (lowerChars o) ("all todos completed".toList) = true :=
    fun hc => hns ⟨"all todos completed", by simp, hc⟩
  have hstrong2 : ¬ containsSub (lowerChars o) ("todos completed: ".toList) = true := by
    intro hc
    exact hns ⟨"todos completed:", by simp,
      containsSub_of_isPrefixOf _ _ _ (by decide) hc⟩
  unfold COMPLETION_SIGNALS HasWeakSignal
  simp only [List.any_cons, List.any_nil, Bool.or_eq_true,
    e1, e2, e3, e4, e5, e6, e7, e8, e9, e10, e11, e12,
    List.mem_cons, List.mem_singleton, List.not_mem_nil]
  constructor
  · intro h
    rcases h with h | h | h | h | h | h | h | h | h | h | h | h | h
    · exact absurd h hstrong1
    · exact absurd h hstrong1
    · exact ⟨"task complete", by tauto⟩
    · exact ⟨"task completed", by tauto⟩
    · exact ⟨"successfully completed", by tauto⟩
    · exact ⟨"all done", by tauto⟩
    · exact ⟨"finished successfully", by tauto⟩
    · exact ⟨"completed successfully", by tauto⟩
    · exact ⟨"nothing left to do", by tauto⟩
    · exact ⟨"all steps completed", by tauto⟩
    · exact absurd h hstrong3
    · exact absurd h hstrong2
    · exact absurd h (by simp)
  · rintro ⟨s, hs, hc⟩
    rcases hs with rfl | rfl | rfl | rfl | rfl | rfl | rfl | (rfl | hfalse)
    · tauto
    · tauto
    · tauto
    · tauto
    · tauto
    · tauto
    · tauto
    · tauto
    · exact hfalse.elim

theorem planning_code_iff (o : String) :
    (completionPlanningPhrases.any (fun p =>
        decide (lastIdx (lowerChars o) (p.toList)
            > lastIdx (lowerChars o) ("complete".toList))
          && decide (lastIdx (lowerChars o) ("complete".toList) ≥ 0)) = true)
      ↔ PlanningAfterComplete o := by
  unfold PlanningAfterComplete
  simp [List.any_eq_true, Bool.and_eq_true, decide_eq_true_eq]

/-- Claim C2: completion detection yields true whenever a strong signal is
present; otherwise a weak signal yields true unless a planning phrase occurs
strictly after the last occurrence of "complete" in the lowercased output;
with no signal it yields false.  The two literal examples of the
specification are checked as stated. -/
theorem c2_detectCompletion_signals :
    (∀ output : String,
      (HasStrongSignal output → detectCompletion output = true) ∧
      (¬ HasStrongSignal output → HasWeakSignal output →
        (detectCompletion output = true ↔ ¬ PlanningAfterComplete output)) ∧
      (¬ HasStrongSignal output → ¬ HasWeakSignal output →
        detectCompletion output = false)) ∧
    detectCompletion "I will refactor next. [TASK_COMPLETE] Summary: done." = true ∧
    detectCompletion "Task completed. Next I will add tests." = false := by
  refine ⟨?_, by decide, by decide⟩
  intro output
  refine ⟨fun hs => ?_, fun hns hw => ?_, fun hns hnw => ?_⟩
  · simp only [detectCompletion]
    rw [if_pos ((hasStrong_code_iff output).mpr hs)]
  · simp only [detectCompletion]
    rw [if_neg (fun hc => hns ((hasStrong_code_iff output).mp hc))]
    have hwb := (hasWeak_code_iff output hns).mpr hw
    rw [if_neg (by simp [hwb])]
    constructor
    · intro h hp
      have hpb := (planning_code_iff output).mpr hp
      rw [hpb] at h
      exact absurd h (by decide)
    · intro h
      have hpb : (completionPlanningPhrases.any (fun p =>
          decide (lastIdx (lowerChars output) (p.toList)
              > lastIdx (lowerChars output) ("complete".toList))
            && decide (lastIdx (lowerChars output) ("complete".toList) ≥ 0))) = false := by
        cases hpa : completionPlanningPhrases.any (fun p =>
            decide (lastIdx (lowerChars output) (p.toList)
                > lastIdx (lowerChars output) ("complete".toList))
              && decide (lastIdx (lowerChars output) ("complete".toList) ≥ 0))
        · rfl
        · exact absurd ((planning_code_iff output).mp hpa) h
      rw [hpb]
      rfl
  · simp only [detectCompletion]
    rw [if_neg (fun hc => hns ((hasStrong_code_iff output).mp hc))]
    have hwb : (COMPLETION_SIGNALS.any
        (fun s => containsSub (lowerChars output) (lowerChars s))) = false := by
      cases hwa : COMPLETION_SIGNALS.any
          (fun s => containsSub (lowerChars output) (lowerChars s))
      · rfl
      · exact absurd ((hasWeak_code_iff output hns).mp hwa) hnw
    rw [if_pos (by simp [hwb])]

/-- Witness for C2: the theorem applied at the two literal outputs of the
specification, with the signal hypotheses discharged by evaluation. -/
theorem c2_witness :
    detectCompletion "I will refactor next. [TASK_COMPLETE] Summary: done." = true ∧
    detectCompletion "Task completed. Next I will add tests." = false := by
  have h := c2_detectCompletion_signals
  constructor
  · exact (h.1 "I will refactor next. [TASK_COMPLETE] Summary: done.").1 (by decide)
  · have hiff := (h.1 "Task completed. Next I will add tests.").2.1
      (by decide) (by decide)
    cases hv : detectCompletion "Task completed. Next I will add tests."
    · rfl
    · exact absurd (hiff.mp hv) (not_not_intro (by decide))

end Sleepless
